import Mathlib

/-!
Verification development for the Zero-bias patient-management frontend.

The definitions below are a shallow embedding of the repository's
TypeScript source: the Next.js auth middleware (`middleware.ts`), the
`usePatients` / `useVitalSigns` / `useRiskAssessment` hooks, the
new-patient submission page (report normalization), the patient-details
"Predict Risks" form, and the API client's `login`.  JavaScript
runtime behaviour that the code relies on (JSON.parse, atob,
decodeURIComponent of percent-encoded UTF-8 bytes, String.prototype.split,
Array.prototype.toString, Date parsing) is modelled by executable Lean
functions; JSON numeric literals are modelled as integers, which covers
every payload the code manipulates.
-/

/-- A parsed JSON value, as produced by `JSON.parse`.  Numbers are
modelled as integers (all numeric literals in the payloads handled by
this repository are integers). -/
inductive Json where
  | null : Json
  | bool (b : Bool) : Json
  | num (n : Int) : Json
  | str (s : String) : Json
  | arr (xs : List Json) : Json
  | obj (fields : List (String × Json)) : Json

/-- JSON whitespace. -/
def isJsonWs (c : Char) : Bool :=
  c = ' ' || c = '\t' || c = '\n' || c = '\r'

/-- Drop leading JSON whitespace. -/
def skipWs : List Char → List Char
  | [] => []
  | c :: rest => if isJsonWs c then skipWs rest else c :: rest

/-- Hexadecimal digit value. -/
def hexVal (c : Char) : Option Nat :=
  if '0' ≤ c ∧ c ≤ '9' then some (c.toNat - 48)
  else if 'a' ≤ c ∧ c ≤ 'f' then some (c.toNat - 87)
  else if 'A' ≤ c ∧ c ≤ 'F' then some (c.toNat - 55)
  else none

/-- Parse the body of a JSON string literal (opening quote already
consumed), returning the decoded string and the rest of the input. -/
def parseStringBody : List Char → Option (String × List Char)
  | [] => none
  | '"' :: rest => some ("", rest)
  | '\\' :: esc =>
    match esc with
    | [] => none
    | 'u' :: a :: b :: c :: d :: rest => do
      let ha ← hexVal a
      let hb ← hexVal b
      let hc ← hexVal c
      let hd ← hexVal d
      let n := ((ha * 16 + hb) * 16 + hc) * 16 + hd
      if n.isValidChar then
        let (s, r) ← parseStringBody rest
        pure (String.mk (Char.ofNat n :: s.data), r)
      else none
    | e :: rest =>
      let c? : Option Char :=
        if e = '"' then some '"'
        else if e = '\\' then some '\\'
        else if e = '/' then some '/'
        else if e = 'n' then some '\n'
        else if e = 't' then some '\t'
        else if e = 'r' then some '\r'
        else if e = 'b' then some '\x08'
        else if e = 'f' then some '\x0c'
        else none
      match c? with
      | none => none
      | some c => do
        let (s, r) ← parseStringBody rest
        pure (String.mk (c :: s.data), r)
  | c :: rest => do
    let (s, r) ← parseStringBody rest
    pure (String.mk (c :: s.data), r)

/-- Parse a run of leading decimal digits into a `Nat`; fails when the
input does not start with a digit. -/
def parseNatDigits (cs : List Char) : Option (Nat × List Char) :=
  let digits := cs.takeWhile Char.isDigit
  let rest := cs.dropWhile Char.isDigit
  if digits.isEmpty then none
  else some (digits.foldl (fun acc c => acc * 10 + (c.toNat - 48)) 0, rest)

mutual

/-- Fuel-indexed JSON value parser, modelling `JSON.parse`. -/
def parseJsonVal : Nat → List Char → Option (Json × List Char)
  | 0, _ => none
  | fuel + 1, cs =>
    match skipWs cs with
    | 'n' :: 'u' :: 'l' :: 'l' :: rest => some (.null, rest)
    | 't' :: 'r' :: 'u' :: 'e' :: rest => some (.bool true, rest)
    | 'f' :: 'a' :: 'l' :: 's' :: 'e' :: rest => some (.bool false, rest)
    | '"' :: rest => do
      let (s, r) ← parseStringBody rest
      pure (.str s, r)
    | '[' :: rest =>
      (match skipWs rest with
       | ']' :: r => some (.arr [], r)
       | cs' => do
         let (xs, r) ← parseArrItems fuel cs'
         pure (.arr xs, r))
    | '\x7b' :: rest =>
      (match skipWs rest with
       | '\x7d' :: r => some (.obj [], r)
       | cs' => do
         let (fs, r) ← parseObjItems fuel cs'
         pure (.obj fs, r))
    | '-' :: rest => do
      let (n, r) ← parseNatDigits rest
      pure (.num (-(n : Int)), r)
    | cs' => do
      let (n, r) ← parseNatDigits cs'
      pure (.num (n : Int), r)

/-- Parse one or more comma-separated array items up to `]`. -/
def parseArrItems : Nat → List Char → Option (List Json × List Char)
  | 0, _ => none
  | fuel + 1, cs => do
    let (v, r) ← parseJsonVal fuel cs
    match skipWs r with
    | ',' :: r' => do
      let (xs, r'') ← parseArrItems fuel r'
      pure (v :: xs, r'')
    | ']' :: r' => pure ([v], r')
    | _ => none

/-- Parse one or more comma-separated `"key": value` members up to the
closing brace. -/
def parseObjItems : Nat → List Char → Option (List (String × Json) × List Char)
  | 0, _ => none
  | fuel + 1, cs =>
    match skipWs cs with
    | '"' :: rest => do
      let (k, r) ← parseStringBody rest
      match skipWs r with
      | ':' :: r' => do
        let (v, r'') ← parseJsonVal fuel r'
        match skipWs r'' with
        | ',' :: r3 => do
          let (fs, r4) ← parseObjItems fuel r3
          pure ((k, v) :: fs, r4)
        | '\x7d' :: r3 => pure ([(k, v)], r3)
        | _ => none
      | _ => none
    | _ => none

end

/-- `JSON.parse`: parse a complete JSON document; fails (throws a
SyntaxError in JS) when the input is not valid JSON or when trailing
non-whitespace remains. -/
def jsonParse (s : String) : Option Json :=
  match parseJsonVal (s.length + 1) s.data with
  | some (v, rest) => if (skipWs rest).isEmpty then some v else none
  | none => none

/-- Helper for `jsSplit`: split the remaining characters at each
occurrence of `sep`, with `acc` the (reversed) characters of the
current piece. -/
def jsSplitAux (sep : Char) : List Char → List Char → List String
  | [], acc => [String.mk acc.reverse]
  | c :: rest, acc =>
    if c = sep then String.mk acc.reverse :: jsSplitAux sep rest []
    else jsSplitAux sep rest (c :: acc)

/-- `String.prototype.split` with a single-character separator (the only
form the repository uses: `token.split('.')` and `codes.split(',')`). -/
def jsSplit (s : String) (sep : Char) : List String :=
  jsSplitAux sep s.data []

/-- `String.prototype.startsWith`. -/
def strStartsWith (s pre : String) : Bool :=
  pre.data.isPrefixOf s.data

/-- Value of a standard base64 alphabet character. -/
def b64Val (c : Char) : Option Nat :=
  if 'A' ≤ c ∧ c ≤ 'Z' then some (c.toNat - 65)
  else if 'a' ≤ c ∧ c ≤ 'z' then some (c.toNat - 71)
  else if '0' ≤ c ∧ c ≤ '9' then some (c.toNat + 4)
  else if c = '+' then some 62
  else if c = '/' then some 63
  else none

/-- Turn a list of 6-bit values (padding already stripped, length mod 4
never 1) into the decoded bytes. -/
def b64Bytes : List Nat → List Nat
  | a :: b :: c :: d :: rest =>
    (a * 4 + b / 16) :: ((b % 16) * 16 + c / 4) :: ((c % 4) * 64 + d) :: b64Bytes rest
  | [a, b] => [a * 4 + b / 16]
  | [a, b, c] => [a * 4 + b / 16, (b % 16) * 16 + c / 4]
  | _ => []

/-- `atob`: decode a base64 string to its bytes; fails (throws
InvalidCharacterError in JS) on characters outside the alphabet,
misplaced padding, or an impossible length. -/
def atob (s : String) : Option (List Nat) := do
  let cs := s.data
  let pad := (cs.reverse.takeWhile (· = '=')).length
  if pad > 2 then none
  let core := cs.take (cs.length - pad)
  if core.any (· = '=') then none
  if core.length % 4 = 1 then none
  if pad ≠ 0 ∧ (core.length + pad) % 4 ≠ 0 then none
  let vals ← core.mapM b64Val
  pure (b64Bytes vals)

/-- UTF-8 decode of a byte list (the net effect of the middleware's
percent-encoding of `atob` output followed by `decodeURIComponent`);
fails (URIError in JS) on a malformed sequence. -/
def utf8Chars : Nat → List Nat → Option (List Char)
  | _, [] => some []
  | 0, _ => none
  | fuel + 1, b1 :: rest =>
    if b1 < 0x80 then do
      let cs ← utf8Chars fuel rest
      pure (Char.ofNat b1 :: cs)
    else if 0xC0 ≤ b1 ∧ b1 < 0xE0 then
      match rest with
      | b2 :: rest2 =>
        if 0x80 ≤ b2 ∧ b2 < 0xC0 then do
          let n := (b1 - 0xC0) * 64 + (b2 - 0x80)
          if n.isValidChar then
            let cs ← utf8Chars fuel rest2
            pure (Char.ofNat n :: cs)
          else none
        else none
      | _ => none
    else if 0xE0 ≤ b1 ∧ b1 < 0xF0 then
      match rest with
      | b2 :: b3 :: rest2 =>
        if (0x80 ≤ b2 ∧ b2 < 0xC0) ∧ (0x80 ≤ b3 ∧ b3 < 0xC0) then do
          let n := (b1 - 0xE0) * 4096 + (b2 - 0x80) * 64 + (b3 - 0x80)
          if n.isValidChar then
            let cs ← utf8Chars fuel rest2
            pure (Char.ofNat n :: cs)
          else none
        else none
      | _ => none
    else if 0xF0 ≤ b1 ∧ b1 < 0xF8 then
      match rest with
      | b2 :: b3 :: b4 :: rest2 =>
        if (0x80 ≤ b2 ∧ b2 < 0xC0) ∧ (0x80 ≤ b3 ∧ b3 < 0xC0) ∧ (0x80 ≤ b4 ∧ b4 < 0xC0) then do
          let n := (b1 - 0xF0) * 262144 + (b2 - 0x80) * 4096 + (b3 - 0x80) * 64 + (b4 - 0x80)
          if n.isValidChar then
            let cs ← utf8Chars fuel rest2
            pure (Char.ofNat n :: cs)
          else none
        else none
      | _ => none
    else none

/-- UTF-8 decode a byte list to a string. -/
def utf8Decode (bytes : List Nat) : Option String :=
  (utf8Chars bytes.length bytes).map String.mk

/-- Look a key up in a parsed JSON object; later duplicate members win,
as with `JSON.parse`.  Property access on a non-object yields
`undefined` (`none`). -/
def objGet : Json → String → Option Json
  | .obj fields, k => (fields.reverse.find? (fun p => p.1 = k)).map Prod.snd
  | _, _ => none

mutual

/-- JavaScript `toString` coercion of a parsed JSON value. -/
def jsToString : Json → String
  | .null => "null"
  | .bool b => if b then "true" else "false"
  | .num n => toString n
  | .str s => s
  | .arr xs => jsListString xs
  | .obj _ => "[object Object]"

/-- `Array.prototype.toString`: elements joined with `","`, with `null`
elements rendered as the empty string. -/
def jsListString : List Json → String
  | [] => ""
  | [Json.null] => ""
  | [j] => jsToString j
  | Json.null :: j2 :: rest => "," ++ jsListString (j2 :: rest)
  | j :: j2 :: rest => jsToString j ++ "," ++ jsListString (j2 :: rest)

end

/-- The middleware's `payload.claim?.toString() || ''` expression: the
empty string when the claim is absent or `null`, otherwise the claim's
string coercion. -/
def claimHeader (payload : Json) (k : String) : String :=
  match objGet payload k with
  | none => ""
  | some .null => ""
  | some v => jsToString v

/-- `decodeJwt` from `middleware.ts`: take the dot-separated token's
second segment, undo the base64url substitutions, base64-decode it,
UTF-8 decode the bytes and `JSON.parse` the result.  Any failure along
the way is a thrown JS error, modelled as `Except.error` naming the
error kind. -/
def decodeJwt (token : String) : Except String Json :=
  match (jsSplit token '.')[1]? with
  | none => .error "TypeError"
  | some base64Url =>
    let base64 :=
      String.mk (base64Url.data.map
        (fun c => if c = '-' then '+' else if c = '_' then '/' else c))
    match atob base64 with
    | none => .error "InvalidCharacterError"
    | some bytes =>
      match utf8Decode bytes with
      | none => .error "URIError"
      | some jsonPayload =>
        match jsonParse jsonPayload with
        | none => .error "SyntaxError"
        | some payload => .ok payload

/-- `PUBLIC_PATHS` from `middleware.ts`. -/
def publicPaths : List String :=
  ["/api/v1/auth/login", "/api/v1/auth/register", "/health", "/login", "/_next", "/favicon.ico"]

/-- `PUBLIC_PATHS.some(path => pathname.startsWith(path))`. -/
def isPublicPath (pathname : String) : Bool :=
  publicPaths.any (fun p => strStartsWith pathname p)

/-- `Headers.set`: replace the value of an existing header name or
append the pair. -/
def setHeader (headers : List (String × String)) (k v : String) : List (String × String) :=
  if headers.any (fun p => p.1 = k) then
    headers.map (fun p => if p.1 = k then (k, v) else p)
  else headers ++ [(k, v)]

/-- An incoming request as seen by the middleware: its pathname, the
value of the `access_token` cookie when present, and its headers. -/
structure Request where
  path : String
  accessTokenCookie : Option String
  headers : List (String × String)

/-- The middleware's observable outcome. -/
inductive MwResponse where
  | next : MwResponse
  | redirect (url : String) : MwResponse
  | nextWithHeaders (headers : List (String × String)) : MwResponse

/-- The forwarded headers: the incoming headers with `x-user-id`,
`x-user-email` and `x-user-role` set from the decoded payload. -/
def userHeaders (reqHeaders : List (String × String)) (payload : Json) : List (String × String) :=
  setHeader (setHeader (setHeader reqHeaders
    "x-user-id" (claimHeader payload "sub"))
    "x-user-email" (claimHeader payload "email"))
    "x-user-role" (claimHeader payload "role")

/-- `middleware` from `middleware.ts`: pass public paths through,
redirect to `/login` when the `access_token` cookie is missing or the
token fails to decode, otherwise forward with user headers attached. -/
def middleware (req : Request) : MwResponse :=
  if isPublicPath req.path then .next
  else
    match req.accessTokenCookie with
    | none => .redirect "/login"
    | some token =>
      match decodeJwt token with
      | .error _ => .redirect "/login"
      | .ok payload => .nextWithHeaders (userHeaders req.headers payload)

/-! ### Bulk report submission (`usePatients.createReports`, part_004) -/

/-- The sequential insert loop inside `createReports`: posts each
report in order and stops at the first failure, leaving the state the
earlier successful posts produced.  The per-report insert itself is the
backend's (abstract parameter `post`); the loop and its error handling
are the hook's. -/
def runReportPosts {σ ρ ε : Type} (post : σ → ρ → Except ε σ) : σ → List ρ → σ × Option ε
  | st, [] => (st, none)
  | st, r :: rs =>
    match post st r with
    | .ok st' => runReportPosts post st' rs
    | .error e => (st, some e)

/-- `createReports(patientId, reports)` from `usePatients`: awaits one
POST per report; on success returns the input list, on the first
failure catches, records and rethrows that error alone. -/
def createReports {σ ρ ε : Type} (post : σ → ρ → Except ε σ) (st : σ) (reports : List ρ) :
    σ × Except ε (List ρ) :=
  match runReportPosts post st reports with
  | (st', none) => (st', .ok reports)
  | (st', some e) => (st', .error e)

/-- A report insert used to exercise `createReports` at concrete
inputs: the state is the list of persisted reports (as naturals) and
the value `0` fails validation. -/
def postC3 (st : List Nat) (r : Nat) : Except String (List Nat) :=
  if r = 0 then .error "ValidationError" else .ok (st ++ [r])

/-! ### Report normalization on submission (`handleSubmit`, part_006) -/

/-- A report field at the form boundary: either an already-structured
collection or a single string. -/
inductive StrOrArr (α : Type) where
  | str (s : String)
  | arr (xs : List α)

/-- A report as captured by the new-patient form, before normalization
(DRG numeric fields modelled as integers). -/
structure RawReport where
  drg_code : String
  drg_description : String
  drg_severity : Int
  drg_mortality : Int
  cpt_codes : StrOrArr String
  icd9_codes : StrOrArr String
  procedure_pairs : StrOrArr Json
  lab_events : StrOrArr Json

/-- A report as sent to the store after `handleSubmit`'s normalization. -/
structure NormReport where
  drg_code : String
  drg_description : String
  drg_severity : Int
  drg_mortality : Int
  cpt_codes : List String
  icd9_codes : List String
  procedure_pairs : Json
  lab_events : Json

/-- `Array.isArray(x) ? x : x.split(',')` — the normalization of
`cpt_codes` and `icd9_codes`. -/
def normalizeCodes : StrOrArr String → List String
  | .arr xs => xs
  | .str s => jsSplit s ','

/-- `Array.isArray(x) ? x : JSON.parse(x)` — the normalization of
`procedure_pairs`; `none` is the thrown SyntaxError. -/
def normalizeJsonField : StrOrArr Json → Option Json
  | .arr xs => some (.arr xs)
  | .str s => jsonParse s

/-- `","`-join of a list of strings (`Array.prototype.join` /
`toString` on an array of strings). -/
def joinComma : List String → String
  | [] => ""
  | [s] => s
  | s :: s2 :: rest => s ++ "," ++ joinComma (s2 :: rest)

/-- `Array.isArray(x) ? x : JSON.parse(x.split(','))` — the
normalization of `lab_events`.  `JSON.parse` coerces its array argument
back to a string by joining with `","`. -/
def normalizeLabEvents : StrOrArr Json → Option Json
  | .arr xs => some (.arr xs)
  | .str s => jsonParse (joinComma (jsSplit s ','))

/-- The per-report normalization performed inside `handleSubmit`'s
`reports.map(...)`: split the code strings, JSON-parse the structured
text fields, pass structured collections through; a parse failure is
the thrown SyntaxError. -/
def normalizeReport (r : RawReport) : Except String NormReport :=
  match normalizeJsonField r.procedure_pairs with
  | none => .error "SyntaxError"
  | some pp =>
    match normalizeLabEvents r.lab_events with
    | none => .error "SyntaxError"
    | some le =>
      .ok { drg_code := r.drg_code, drg_description := r.drg_description,
            drg_severity := r.drg_severity, drg_mortality := r.drg_mortality,
            cpt_codes := normalizeCodes r.cpt_codes,
            icd9_codes := normalizeCodes r.icd9_codes,
            procedure_pairs := pp, lab_events := le }

/-- `reports.map(...)` with the normalization above: the first thrown
parse error aborts the whole mapping. -/
def normalizeReports : List RawReport → Except String (List NormReport)
  | [] => .ok []
  | r :: rs =>
    match normalizeReport r with
    | .error e => .error e
    | .ok n =>
      match normalizeReports rs with
      | .error e => .error e
      | .ok ns => .ok (n :: ns)

/-- The report-submission pipeline of `handleSubmit` (part_006): the
argument to `createReports` is the eager normalization of every report,
so a normalization error is thrown before any report is posted; when
normalization succeeds, the posts run through `createReports`. -/
def handleSubmitReports {σ ε : Type} (post : σ → NormReport → Except ε σ) (st : σ)
    (reports : List RawReport) : σ × Except (String ⊕ ε) (List NormReport) :=
  match normalizeReports reports with
  | .error e => (st, .error (.inl e))
  | .ok ns =>
    match createReports post st ns with
    | (st', .ok _) => (st', .ok ns)
    | (st', .error e) => (st', .error (.inr e))

/-! ### Vital signs hook (`useVitalSigns`, part_004) -/

/-- A VitalSigns row (numeric clinical fields modelled as integers;
`measured_at` is the caller-supplied ISO timestamp string, whose
lexicographic order is chronological order). -/
structure VitalSigns where
  id : Int
  patient_id : Int
  heart_rate : Option Int
  blood_pressure_systolic : Option Int
  blood_pressure_diastolic : Option Int
  temperature : Option Int
  respiratory_rate : Option Int
  oxygen_saturation : Option Int
  notes : Option String
  measured_at : String
  measured_by : Int

/-- The `useVitalSigns` hook state: the fetched rows and the
`latestVitalSigns` value. -/
structure VitalsHookState where
  vitalSigns : List VitalSigns
  latestVitalSigns : Option VitalSigns

/-- `createVitalSigns` from `useVitalSigns`: append the created row to
`vitalSigns` and set `latestVitalSigns` to that row. -/
def createVitalSignsClient (st : VitalsHookState) (created : VitalSigns) : VitalsHookState :=
  { vitalSigns := st.vitalSigns ++ [created], latestVitalSigns := some created }

/-- Strict lexicographic comparison of character lists; on ISO
timestamp strings this is chronological order. -/
def charsLt : List Char → List Char → Bool
  | [], [] => false
  | [], _ :: _ => true
  | _ :: _, [] => false
  | a :: as, b :: bs =>
    if a.toNat < b.toNat then true
    else if b.toNat < a.toNat then false
    else charsLt as bs

/-- `a` is chronologically before `b` (both ISO timestamp strings). -/
def tsBefore (a b : String) : Bool :=
  charsLt a.data b.data

/-- `a` is chronologically no later than `b`. -/
def tsLe (a b : String) : Bool :=
  !tsBefore b a

/-- The spec's definition of the latest vitals: a row of the collection
whose `measured_at` is maximal. -/
def isLatestBySpec (rows : List VitalSigns) (row : VitalSigns) : Prop :=
  row ∈ rows ∧ ∀ r ∈ rows, tsLe r.measured_at row.measured_at = true

/-- An already-recorded row with a later measurement time, for
exercising the hook at concrete inputs. -/
def rowJune : VitalSigns :=
  ⟨1, 7, some 80, none, none, none, none, none, none, "2025-06-01T00:00:00Z", 3⟩

/-- A newly inserted row whose caller-supplied `measured_at` is earlier
than `rowJune`'s. -/
def rowJan : VitalSigns :=
  ⟨2, 7, some 90, none, none, none, none, none, none, "2025-01-01T00:00:00Z", 3⟩

/-! ### Risk assessment (`useRiskAssessment`, part_001; orchestrator from the spec) -/

/-- Why the external prediction collaborator failed (spec §4.3). -/
inductive PredFailure where
  | network : PredFailure
  | timeout : PredFailure
  | malformedResponse : PredFailure

/-- The orchestrator's error: the spec's PredictionUnavailable. -/
inductive OrchestratorError where
  | predictionUnavailable (why : PredFailure) : OrchestratorError

/-- Modelled from the spec: the Risk Assessment Orchestrator's
`createRiskAssessment` — the backend service behind
`POST /api/v1/patients/{id}/risk-assessment` is not under `src/` (only
its client in part_001 is).  Per §4.3 it calls the external prediction
collaborator and, on a well-formed response, persists one new
RiskAssessment row; on network failure, timeout or malformed response
it fails with PredictionUnavailable and writes no row.  `predict` is
the external collaborator, `mkRow` the construction of the persisted
row from its response, and the returned list the RiskAssessment store. -/
def createRiskAssessmentServer {φ π α : Type} (predict : φ → Except PredFailure π)
    (mkRow : π → α) (store : List α) (features : φ) : Except OrchestratorError α × List α :=
  match predict features with
  | .error f => (.error (.predictionUnavailable f), store)
  | .ok res => ((.ok (mkRow res)), store ++ [mkRow res])

/-- `createRiskAssessment` from `useRiskAssessment` (part_001): on a
successful response set `latestAssessment` to the returned row; on an
error record and rethrow it, leaving `latestAssessment` unchanged. -/
def clientCreateRiskAssessment {α ε : Type} (serverResult : Except ε α) (latest : Option α) :
    Except ε α × Option α :=
  match serverResult with
  | .ok row => (.ok row, some row)
  | .error e => (.error e, latest)

/-! ### Report-level "Predict Risk" (`PatientDetailsPage`, middleware.ts part) -/

/-- The patient fields the predict form reads (the admission/discharge/
ethnicity/DRG-type fields are optional — absent on the typed Patient). -/
structure PatientView where
  full_name : String
  date_of_birth : String
  gender : String
  admission_type : Option String
  discharge_location : Option String
  ethnicity : Option String
  drg_type : Option String

/-- A stored report as the details page receives it (fields already
structured). -/
structure ReportView where
  id : Int
  drg_code : String
  drg_description : String
  drg_severity : Int
  drg_mortality : Int
  cpt_codes : List String
  icd9_codes : List String
  procedure_pairs : Json
  lab_events : Json

mutual

/-- `JSON.stringify` of a parsed JSON value (string escaping omitted:
the values stringified by the page are arrays of numbers). -/
def jsonStringify : Json → String
  | .null => "null"
  | .bool b => if b then "true" else "false"
  | .num n => toString n
  | .str s => "\"" ++ s ++ "\""
  | .arr xs => "[" ++ jsonStringifyList xs ++ "]"
  | .obj fs => "\x7b" ++ jsonStringifyFields fs ++ "\x7d"

/-- Comma-joined stringification of array elements. -/
def jsonStringifyList : List Json → String
  | [] => ""
  | [j] => jsonStringify j
  | j :: j2 :: rest => jsonStringify j ++ "," ++ jsonStringifyList (j2 :: rest)

/-- Comma-joined stringification of object members. -/
def jsonStringifyFields : List (String × Json) → String
  | [] => ""
  | [(k, v)] => "\"" ++ k ++ "\":" ++ jsonStringify v
  | (k, v) :: f2 :: rest => "\"" ++ k ++ "\":" ++ jsonStringify v ++ "," ++ jsonStringifyFields (f2 :: rest)

end

/-- Model of the host's date parsing as the code uses it: a string
parses when it begins `YYYY-MM-DD` (the ISO form the forms produce);
anything else yields an Invalid Date. -/
def isIsoDateString (s : String) : Bool :=
  match s.data with
  | y1 :: y2 :: y3 :: y4 :: '-' :: m1 :: m2 :: '-' :: d1 :: d2 :: _ =>
    y1.isDigit && y2.isDigit && y3.isDigit && y4.isDigit &&
    m1.isDigit && m2.isDigit && d1.isDigit && d2.isDigit
  | _ => false

/-- `new Date(s).getFullYear()`: the leading year of a parseable ISO
string, `none` (NaN) for an Invalid Date. -/
def jsDateYear (s : String) : Option Int :=
  match s.data with
  | y1 :: y2 :: y3 :: y4 :: '-' :: m1 :: m2 :: '-' :: d1 :: d2 :: _ =>
    if y1.isDigit && y2.isDigit && y3.isDigit && y4.isDigit &&
       m1.isDigit && m2.isDigit && d1.isDigit && d2.isDigit then
      some (((((y1.toNat - 48) * 10 + (y2.toNat - 48)) * 10 + (y3.toNat - 48)) * 10
        + (y4.toNat - 48) : Nat) : Int)
    else none
  | _ => none

/-- The hidden-input payload of the "Predict Risks" form: the object
literal built in `PatientDetailsPage`. -/
structure PredictPayload where
  admission_type : Option String
  discharge_location : Option String
  ethnicity : Option String
  cpt_cd : List String
  all_diagnosis : List String
  gender : String
  age : Option Int
  drg_type : Option String
  drg_code : String
  description : String
  drg_severity : Int
  drg_mortality : Int
  procedure_pairs : String
  lab_events : Json
  submit : String

/-- The payload construction of the "Predict Risks" form: patient
demographics plus the one report's codes; age is the difference of the
current year and the birth year (`none` models NaN from an invalid
date). -/
def buildPredictPayload (currentYear : Int) (p : PatientView) (r : ReportView) : PredictPayload :=
  { admission_type := p.admission_type
    discharge_location := p.discharge_location
    ethnicity := p.ethnicity
    cpt_cd := r.cpt_codes
    all_diagnosis := r.icd9_codes
    gender := p.gender
    age := (jsDateYear p.date_of_birth).map (fun y => currentYear - y)
    drg_type := p.drg_type
    drg_code := r.drg_code
    description := r.drg_description
    drg_severity := r.drg_severity
    drg_mortality := r.drg_mortality
    procedure_pairs := jsonStringify r.procedure_pairs
    lab_events := r.lab_events
    submit := "true" }

/-- The "Predict Risks" path of `PatientDetailsPage`: an HTML form that
posts the payload straight to the external collaborator's URL.  The
path contains no API-client or Entity Store call, so it returns every
store (`σ`) exactly as given. -/
def predictRisksSubmit {σ : Type} (store : σ) (currentYear : Int) (p : PatientView)
    (r : ReportView) : PredictPayload × σ :=
  (buildPredictPayload currentYear p r, store)

/-! ### Login token persistence (`api-client.ts`) and browser state -/

/-- Client-side browser storage: the cookie jar and local storage. -/
structure Browser where
  cookies : List (String × String)
  localStorage : List (String × String)

/-- Key lookup in an association list (cookie / storage read): the
first pair with the given key. -/
def getAssoc : List (String × String) → String → Option String
  | [], _ => none
  | p :: m, k => if p.1 = k then some p.2 else getAssoc m k

/-- The persistence step of `ApiClient.login` after a successful
response: `document.cookie = access_token=...` and
`localStorage.setItem('access_token', ...)`. -/
def loginStoreToken (b : Browser) (access_token : String) : Browser :=
  { cookies := setHeader b.cookies "access_token" access_token
    localStorage := setHeader b.localStorage "access_token" access_token }

/-! ### Patient creation (`usePatients.createPatient`, part_004) -/

/-- A JS `Date` value: either invalid or carrying its source string. -/
inductive JsDate where
  | invalid : JsDate
  | valid (iso : String) : JsDate

/-- `new Date(x)` for an optional string argument: `undefined` and
unparseable strings give an Invalid Date. -/
def jsNewDate : Option String → JsDate
  | none => .invalid
  | some s => if isIsoDateString s then .valid s else .invalid

/-- The `PatientCreate` payload as the hook receives it (the `DOB`
field is optional at runtime: the form state is a
`Partial<PatientCreate>` cast). -/
structure PatientCreateData where
  full_name : String
  date_of_birth : String
  gender : String
  contact_number : Option String
  email : Option String
  address : Option String
  blood_type : Option String
  height : Option Int
  weight : Option Int
  allergies : Option String
  chronic_conditions : Option String
  current_medications : Option String
  family_history : Option String
  emergency_contact_name : Option String
  emergency_contact_number : Option String
  insurance_provider : Option String
  insurance_id : Option String
  DOB : Option String

/-- The payload as POSTed: identical except that `date_of_birth` now
holds the `Date` object built from `DOB`. -/
structure PostedPatientCreate where
  full_name : String
  date_of_birth : JsDate
  gender : String
  contact_number : Option String
  email : Option String
  address : Option String
  blood_type : Option String
  height : Option Int
  weight : Option Int
  allergies : Option String
  chronic_conditions : Option String
  current_medications : Option String
  family_history : Option String
  emergency_contact_name : Option String
  emergency_contact_number : Option String
  insurance_provider : Option String
  insurance_id : Option String
  DOB : Option String

/-- The spec's client-side validation error (never produced by this
code path). -/
inductive ClientValidationError where
  | validationError (fields : List String) : ClientValidationError

/-- The payload `createPatient` actually posts:
`data.date_of_birth = new Date(data["DOB"])` applied to the input. -/
def postedPatientOf (data : PatientCreateData) : PostedPatientCreate :=
  { full_name := data.full_name
    date_of_birth := jsNewDate data.DOB
    gender := data.gender
    contact_number := data.contact_number
    email := data.email
    address := data.address
    blood_type := data.blood_type
    height := data.height
    weight := data.weight
    allergies := data.allergies
    chronic_conditions := data.chronic_conditions
    current_medications := data.current_medications
    family_history := data.family_history
    emergency_contact_name := data.emergency_contact_name
    emergency_contact_number := data.emergency_contact_number
    insurance_provider := data.insurance_provider
    insurance_id := data.insurance_id
    DOB := data.DOB }

/-- `createPatient` from `usePatients` (client side): overwrite
`date_of_birth` and post; the client itself performs no validation, so
it never fails with a ValidationError. -/
def createPatientClient (data : PatientCreateData) :
    Except ClientValidationError PostedPatientCreate :=
  .ok (postedPatientOf data)

/-! ### Concrete inputs used by the witnesses and counterexamples -/

/-- A well-formed bearer token whose payload is `payloadC1`. -/
def tokC1 : String := "hh.eyJzdWIiOiI0MiIsImVtYWlsIjoiYUBiLmMiLCJyb2xlIjoiYWRtaW4ifQ.ss"

/-- The decoded payload of `tokC1`. -/
def payloadC1 : Json :=
  .obj [("sub", .str "42"), ("email", .str "a@b.c"), ("role", .str "admin")]

/-- A well-formed bearer token whose payload carries `exp = 1`
(1970-01-01T00:00:01Z, decades in the past). -/
def tokC2 : String := "hh.eyJzdWIiOiIxIiwiZW1haWwiOiJlQHgiLCJyb2xlIjoiZG9jdG9yIiwiZXhwIjoxfQ.ss"

/-- The decoded payload of `tokC2`. -/
def payloadC2 : Json :=
  .obj [("sub", .str "1"), ("email", .str "e@x"), ("role", .str "doctor"), ("exp", .num 1)]

/-- A raw report with every boundary field in its textual form (the
lab events already structured). -/
def rawC4 : RawReport :=
  { drg_code := "291"
    drg_description := "Heart failure"
    drg_severity := 1
    drg_mortality := 2
    cpt_codes := .str "99291, 99233"
    icd9_codes := .str "99291, 99233"
    procedure_pairs := .str "[[1,311],[2,3323]]"
    lab_events := .arr [] }

/-- The normalization `handleSubmit` produces for `rawC4`. -/
def normC4 : NormReport :=
  { drg_code := "291"
    drg_description := "Heart failure"
    drg_severity := 1
    drg_mortality := 2
    cpt_codes := ["99291", " 99233"]
    icd9_codes := ["99291", " 99233"]
    procedure_pairs := .arr [.arr [.num 1, .num 311], .arr [.num 2, .num 3323]]
    lab_events := .arr [] }

/-- A raw report whose `procedure_pairs` text is malformed JSON. -/
def rC5 : RawReport :=
  { drg_code := "291"
    drg_description := "d"
    drg_severity := 1
    drg_mortality := 1
    cpt_codes := .arr []
    icd9_codes := .arr []
    procedure_pairs := .str "[[1,"
    lab_events := .arr [] }

/-- An always-succeeding report insert (state = list of stored rows),
for exercising the submission pipeline at concrete inputs. -/
def postC5 (st : List NormReport) (n : NormReport) : Except String (List NormReport) :=
  .ok (st ++ [n])

/-- A patient payload whose `DOB` field was never set by the form. -/
def dataC10 : PatientCreateData :=
  { full_name := "Jane Roe"
    date_of_birth := "1990-05-02"
    gender := "female"
    contact_number := none
    email := none
    address := none
    blood_type := none
    height := none
    weight := none
    allergies := none
    chronic_conditions := none
    current_medications := none
    family_history := none
    emergency_contact_name := none
    emergency_contact_number := none
    insurance_provider := none
    insurance_id := none
    DOB := none }

/-! ## Helper lemmas -/

/-- `setHeader` on the replace branch: when the key occurs, the mapped
list yields the new value. -/
theorem getAssoc_map_replace (k v : String) (m : List (String × String))
    (h : m.any (fun p => p.1 = k) = true) :
    getAssoc (m.map (fun p => if p.1 = k then (k, v) else p)) k = some v := by
  induction m with
  | nil => simp at h
  | cons q m ih =>
    by_cases hq : q.1 = k
    · simp [getAssoc, hq]
    · have hm : m.any (fun p => p.1 = k) = true := by simpa [hq] using h
      simpa [getAssoc, hq] using ih hm

/-- `setHeader` on the append branch: when the key is absent, the
appended pair is found. -/
theorem getAssoc_append_new (k v : String) (m : List (String × String))
    (h : m.any (fun p => p.1 = k) = false) :
    getAssoc (m ++ [(k, v)]) k = some v := by
  induction m with
  | nil => simp [getAssoc]
  | cons q m ih =>
    have hq : ¬ q.1 = k := by
      intro hk
      simp [hk] at h
    have hm : m.any (fun p => p.1 = k) = false := by
      rcases List.any_eq_false.mp h with h'
      exact List.any_eq_false.mpr (fun p hp => h' p (List.mem_cons_of_mem q hp))
    simpa [getAssoc, hq] using ih hm

/-- Updating an association list with `setHeader` makes the key map to
the new value. -/
theorem getAssoc_setHeader (m : List (String × String)) (k v : String) :
    getAssoc (setHeader m k v) k = some v := by
  cases hany : m.any (fun p => p.1 = k) with
  | true => simpa [setHeader, hany] using getAssoc_map_replace k v m hany
  | false => simpa [setHeader, hany] using getAssoc_append_new k v m hany

/-- A split never produces the empty list. -/
theorem jsSplitAux_ne_nil (sep : Char) (cs : List Char) :
    ∀ acc, jsSplitAux sep cs acc ≠ [] := by
  induction cs with
  | nil => intro acc; simp [jsSplitAux]
  | cons c rest ih =>
    intro acc
    by_cases h : c = sep
    · simp [jsSplitAux, h]
    · simpa [jsSplitAux, h] using ih (c :: acc)

/-- `joinComma` over a cons with a nonempty tail inserts one comma. -/
theorem joinComma_cons (s : String) (L : List String) (h : L ≠ []) :
    joinComma (s :: L) = s ++ "," ++ joinComma L := by
  cases L with
  | nil => exact absurd rfl h
  | cons t M => rfl

/-- Joining the pieces of a comma split restores the original
characters (with the pending accumulator in front). -/
theorem joinComma_jsSplitAux (cs : List Char) :
    ∀ acc, joinComma (jsSplitAux ',' cs acc) = String.mk (acc.reverse ++ cs) := by
  induction cs with
  | nil => intro acc; simp [jsSplitAux, joinComma]
  | cons c rest ih =>
    intro acc
    by_cases h : c = ','
    · subst h
      rw [show jsSplitAux ',' (',' :: rest) acc
            = String.mk acc.reverse :: jsSplitAux ',' rest [] from by simp [jsSplitAux]]
      rw [joinComma_cons _ _ (jsSplitAux_ne_nil ',' rest [])]
      rw [ih []]
      show String.mk acc.reverse ++ String.mk [','] ++ String.mk ([].reverse ++ rest)
        = String.mk (acc.reverse ++ ',' :: rest)
      show String.mk (acc.reverse ++ [','] ++ ([].reverse ++ rest)) = _
      exact congrArg String.mk (by simp)
    · rw [show jsSplitAux ',' (c :: rest) acc = jsSplitAux ',' rest (c :: acc) from by
        simp [jsSplitAux, h]]
      rw [ih (c :: acc)]
      exact congrArg String.mk (by simp)

/-- `JSON.parse(s.split(',').toString())` receives exactly `s` back:
splitting on commas and re-joining with commas is the identity. -/
theorem joinComma_jsSplit (s : String) : joinComma (jsSplit s ',') = s := by
  simpa [jsSplit] using joinComma_jsSplitAux s.data []

/-- Malformed `procedure_pairs` text makes the report normalization
throw. -/
theorem normalizeReport_error_of_bad_pairs (r : RawReport) (s : String)
    (hs : r.procedure_pairs = .str s) (hbad : jsonParse s = none) :
    normalizeReport r = .error "SyntaxError" := by
  simp [normalizeReport, normalizeJsonField, hs, hbad]

/-- Malformed `lab_events` text makes the report normalization throw. -/
theorem normalizeReport_error_of_bad_labs (r : RawReport) (s : String)
    (hs : r.lab_events = .str s) (hbad : jsonParse s = none) :
    normalizeReport r = .error "SyntaxError" := by
  cases hpp : normalizeJsonField r.procedure_pairs with
  | none => simp [normalizeReport, hpp]
  | some pp =>
    have hle : normalizeLabEvents r.lab_events = none := by
      simp [normalizeLabEvents, hs, joinComma_jsSplit, hbad]
    simp [normalizeReport, hpp, hle]

/-- One failing element aborts the whole `reports.map(...)`. -/
theorem normalizeReports_error_of_mem (reports : List RawReport) (r : RawReport) (e : String)
    (hmem : r ∈ reports) (herr : normalizeReport r = .error e) :
    ∃ e', normalizeReports reports = .error e' := by
  induction reports with
  | nil => cases hmem
  | cons q rest ih =>
    rcases List.mem_cons.mp hmem with hq | hq
    · exact ⟨e, by simp [normalizeReports, hq ▸ herr]⟩
    · cases hnq : normalizeReport q with
      | error e2 => exact ⟨e2, by simp [normalizeReports, hnq]⟩
      | ok n =>
        obtain ⟨e', he'⟩ := ih hq
        exact ⟨e', by simp [normalizeReports, hnq, he']⟩

/-! ## Claim theorems -/

/-- C1: For every request to a non-public path, the Auth Gate rejects
(redirects to `/login`) when the `access_token` cookie is absent or the
bearer token's payload cannot be decoded; otherwise it forwards the
request with `x-user-id`, `x-user-email` and `x-user-role` headers
taken from the decoded payload's `sub`, `email` and `role` claims. -/
theorem auth_gate_behavior (req : Request) (hpub : isPublicPath req.path = false) :
    (req.accessTokenCookie = none → middleware req = .redirect "/login") ∧
    (∀ tok e, req.accessTokenCookie = some tok → decodeJwt tok = .error e →
      middleware req = .redirect "/login") ∧
    (∀ tok payload, req.accessTokenCookie = some tok → decodeJwt tok = .ok payload →
      middleware req = .nextWithHeaders (userHeaders req.headers payload)) := by
  refine ⟨fun h => ?_, fun tok e hc hd => ?_, fun tok payload hc hd => ?_⟩ <;>
    simp [middleware, hpub, *]

/-- Witness for C1: a concrete request for `/patients` carrying
`tokC1` is forwarded with the payload's claims as user headers. -/
theorem auth_gate_behavior_witness :
    middleware ⟨"/patients", some tokC1, []⟩ =
      .nextWithHeaders [("x-user-id", "42"), ("x-user-email", "a@b.c"), ("x-user-role", "admin")] := by
  have h := (auth_gate_behavior ⟨"/patients", some tokC1, []⟩ rfl).2.2 tokC1 payloadC1 rfl (by rfl)
  rw [h]; rfl

/-- C2 counterexample: `tokC2` decodes to a payload whose `exp` claim
is `1` (1970-01-01T00:00:01Z, long past), yet the middleware forwards
the request with user headers attached instead of rejecting it — the
gate never inspects `exp`. -/
theorem expired_token_forwarded :
    decodeJwt tokC2 = .ok payloadC2 ∧
    objGet payloadC2 "exp" = some (.num 1) ∧
    middleware ⟨"/dashboard", some tokC2, []⟩ =
      .nextWithHeaders [("x-user-id", "1"), ("x-user-email", "e@x"), ("x-user-role", "doctor")] :=
  ⟨rfl, rfl, rfl⟩

/-- C2 amended: the Auth Gate performs no expiry check — a request to a
non-public path whose cookie holds a token with a decodable payload is
forwarded with user headers regardless of the payload's `exp` claim,
expired or not. -/
theorem middleware_ignores_exp (req : Request) (tok : String) (payload : Json) (t : Int)
    (hpub : isPublicPath req.path = false)
    (hc : req.accessTokenCookie = some tok)
    (hd : decodeJwt tok = .ok payload)
    (_hexp : objGet payload "exp" = some (.num t)) :
    middleware req = .nextWithHeaders (userHeaders req.headers payload) := by
  simp [middleware, hpub, hc, hd]

/-- Witness for the amended C2 at the expired token `tokC2`. -/
theorem middleware_ignores_exp_witness :
    middleware ⟨"/dashboard", some tokC2, []⟩ =
      .nextWithHeaders (userHeaders [] payloadC2) :=
  middleware_ignores_exp ⟨"/dashboard", some tokC2, []⟩ tokC2 payloadC2 1 rfl rfl rfl rfl

/-- C3 counterexample: with the first insert succeeding and the second
failing, `createReports` persists the first report (state `[1]`) yet
surfaces only the second insert's bare error — a total-failure outcome
carrying no record of which elements succeeded and which failed. -/
theorem createReports_total_failure :
    createReports postC3 [] [1, 0] = ([1], .error "ValidationError") := rfl

/-- C3 amended: when an earlier report insert succeeds and a later one
fails, `createReports` keeps the earlier insert's effect and rethrows
the failing insert's error alone; the surfaced outcome is that single
error, masking the partial success rather than reporting which
elements succeeded and which failed. -/
theorem createReports_masks_partial_success {σ ρ ε : Type} (post : σ → ρ → Except ε σ)
    (st st1 : σ) (r1 r2 : ρ) (e : ε)
    (h1 : post st r1 = .ok st1) (h2 : post st1 r2 = .error e) :
    createReports post st [r1, r2] = (st1, .error e) := by
  simp [createReports, runReportPosts, h1, h2]

/-- Witness for the amended C3: report `1` persists, report `0` fails. -/
theorem createReports_masks_partial_success_witness :
    createReports postC3 [] [1, 0] = ([1], .error "ValidationError") :=
  createReports_masks_partial_success postC3 [] [1] 1 0 "ValidationError" rfl rfl

/-- C4 counterexample: the comma split does not trim whitespace, so the
input `"99291, 99233"` normalizes to `["99291", " 99233"]` (second
element keeps its leading space), not `["99291", "99233"]` as claimed. -/
theorem cpt_normalization_keeps_space :
    normalizeCodes (.str "99291, 99233") = ["99291", " 99233"] ∧
    normalizeCodes (.str "99291, 99233") ≠ ["99291", "99233"] :=
  ⟨rfl, by decide⟩

/-- C4 amended: for a report `handleSubmit` normalizes successfully:
cpt/icd9 given as `"99291, 99233"` become `["99291", " 99233"]` (split
on commas, whitespace preserved); `procedure_pairs` given as
`"[[1,311],[2,3323]]"` becomes the structured array
`[[1,311],[2,3323]]`; fields already given as structured collections
pass through unchanged. -/
theorem report_normalization (r : RawReport) (n : NormReport)
    (h : normalizeReport r = .ok n) :
    (r.cpt_codes = .str "99291, 99233" → n.cpt_codes = ["99291", " 99233"]) ∧
    (r.icd9_codes = .str "99291, 99233" → n.icd9_codes = ["99291", " 99233"]) ∧
    (r.procedure_pairs = .str "[[1,311],[2,3323]]" →
      n.procedure_pairs = .arr [.arr [.num 1, .num 311], .arr [.num 2, .num 3323]]) ∧
    (∀ xs, r.cpt_codes = .arr xs → n.cpt_codes = xs) ∧
    (∀ xs, r.icd9_codes = .arr xs → n.icd9_codes = xs) ∧
    (∀ xs, r.procedure_pairs = .arr xs → n.procedure_pairs = .arr xs) ∧
    (∀ xs, r.lab_events = .arr xs → n.lab_events = .arr xs) := by
  cases hpp : normalizeJsonField r.procedure_pairs with
  | none => simp [normalizeReport, hpp] at h
  | some pp =>
    cases hle : normalizeLabEvents r.lab_events with
    | none => simp [normalizeReport, hpp, hle] at h
    | some le =>
      simp only [normalizeReport, hpp, hle] at h
      obtain rfl := (Except.ok.inj h).symm
      refine ⟨fun hc => ?_, fun hc => ?_, fun hc => ?_,
        fun xs hc => ?_, fun xs hc => ?_, fun xs hc => ?_, fun xs hc => ?_⟩
      · show normalizeCodes r.cpt_codes = _
        rw [hc]; rfl
      · show normalizeCodes r.icd9_codes = _
        rw [hc]; rfl
      · show pp = _
        rw [hc] at hpp
        rw [show normalizeJsonField (StrOrArr.str "[[1,311],[2,3323]]")
              = some (Json.arr [.arr [.num 1, .num 311], .arr [.num 2, .num 3323]]) from rfl] at hpp
        exact (Option.some.inj hpp).symm
      · show normalizeCodes r.cpt_codes = _
        rw [hc]; rfl
      · show normalizeCodes r.icd9_codes = _
        rw [hc]; rfl
      · show pp = _
        rw [hc] at hpp
        exact (Option.some.inj hpp).symm
      · show le = _
        rw [hc] at hle
        exact (Option.some.inj hle).symm

/-- Witness for the amended C4 at `rawC4`. -/
theorem report_normalization_witness :
    normalizeReport rawC4 = .ok normC4 ∧
    normC4.cpt_codes = ["99291", " 99233"] ∧
    normC4.icd9_codes = ["99291", " 99233"] ∧
    normC4.procedure_pairs = .arr [.arr [.num 1, .num 311], .arr [.num 2, .num 3323]] ∧
    normC4.lab_events = .arr [] :=
  have h := report_normalization rawC4 normC4 rfl
  ⟨rfl, h.1 rfl, h.2.1 rfl, h.2.2.1 rfl, h.2.2.2.2.2.2 [] rfl⟩

/-- C5: a report whose `procedure_pairs` or `lab_events` text is
malformed makes the submission pipeline throw the parse error
(the spec's ValidationError for malformed structure) before any report
is posted: the store is returned unchanged and no partial structure is
stored. -/
theorem malformed_report_aborts_submission {σ ε : Type} (post : σ → NormReport → Except ε σ)
    (st : σ) (reports : List RawReport) (r : RawReport) (hmem : r ∈ reports) :
    (∀ s, r.procedure_pairs = .str s → jsonParse s = none →
      ∃ e, handleSubmitReports post st reports = (st, .error (.inl e))) ∧
    (∀ s, r.lab_events = .str s → jsonParse s = none →
      ∃ e, handleSubmitReports post st reports = (st, .error (.inl e))) := by
  constructor
  · intro s hs hbad
    obtain ⟨e', he'⟩ := normalizeReports_error_of_mem reports r "SyntaxError" hmem
      (normalizeReport_error_of_bad_pairs r s hs hbad)
    exact ⟨e', by simp [handleSubmitReports, he']⟩
  · intro s hs hbad
    obtain ⟨e', he'⟩ := normalizeReports_error_of_mem reports r "SyntaxError" hmem
      (normalizeReport_error_of_bad_labs r s hs hbad)
    exact ⟨e', by simp [handleSubmitReports, he']⟩

/-- Witness for C5: submitting the single report `rC5`, whose
`procedure_pairs` is the malformed `"[[1,"`, fails and leaves the empty
store unchanged. -/
theorem malformed_report_aborts_submission_witness :
    ∃ e, handleSubmitReports postC5 ([] : List NormReport) [rC5] = ([], .error (.inl e)) :=
  (malformed_report_aborts_submission postC5 [] [rC5] rC5 (List.mem_singleton.mpr rfl)).1
    "[[1," rfl rfl

/-- C6 counterexample: with `rowJune` (measured June 2025) already
recorded, `createVitalSigns` of `rowJan` (measured January 2025, i.e.
earlier) sets the hook's latest vitals to `rowJan` — the most recently
inserted row — even though `rowJan` is not the row with the maximum
measured-at among the patient's rows. -/
theorem latest_vitals_not_max :
    (createVitalSignsClient ⟨[rowJune], some rowJune⟩ rowJan).latestVitalSigns = some rowJan ∧
    tsBefore rowJan.measured_at rowJune.measured_at = true ∧
    ¬ isLatestBySpec (createVitalSignsClient ⟨[rowJune], some rowJune⟩ rowJan).vitalSigns rowJan := by
  refine ⟨rfl, rfl, ?_⟩
  rintro ⟨-, hmax⟩
  have hJune : rowJune ∈ (createVitalSignsClient ⟨[rowJune], some rowJune⟩ rowJan).vitalSigns := by
    simp [createVitalSignsClient]
  exact absurd (hmax rowJune hJune) (by decide)

/-- C6 amended: the `useVitalSigns` hook maintains its latest-vitals
value incrementally, not by recomputing the maximum measured-at:
`createVitalSigns` always sets `latestVitalSigns` to the newly inserted
row and appends it to the list, so after inserting a row with an
earlier measured-at the observable latest vitals is the most recently
inserted row, not the row with the maximum measured-at. -/
theorem createVitalSigns_latest_is_inserted (st : VitalsHookState) (row : VitalSigns) :
    (createVitalSignsClient st row).latestVitalSigns = some row ∧
    (createVitalSignsClient st row).vitalSigns = st.vitalSigns ++ [row] :=
  ⟨rfl, rfl⟩

/-- C7: when the external prediction collaborator fails (network
failure, timeout or malformed response), `createRiskAssessment` fails
with PredictionUnavailable, the RiskAssessment store is unchanged (no
row written), and the client hook's latest assessment is unchanged. -/
theorem riskAssessment_failure_no_persistence {φ π α : Type}
    (predict : φ → Except PredFailure π) (mkRow : π → α) (store : List α)
    (latest : Option α) (features : φ) (f : PredFailure)
    (hfail : predict features = .error f) :
    createRiskAssessmentServer predict mkRow store features =
      (.error (.predictionUnavailable f), store) ∧
    clientCreateRiskAssessment
      (createRiskAssessmentServer predict mkRow store features).1 latest =
      (.error (.predictionUnavailable f), latest) := by
  constructor <;> simp [createRiskAssessmentServer, clientCreateRiskAssessment, hfail]

/-- Witness for C7: a collaborator that times out leaves the store
`[7]` and the absent latest assessment untouched. -/
theorem riskAssessment_failure_no_persistence_witness :
    createRiskAssessmentServer (fun _ : Unit => (.error .timeout : Except PredFailure Unit))
      (fun _ => (0 : Nat)) [7] () = (.error (.predictionUnavailable .timeout), [7]) ∧
    clientCreateRiskAssessment
      (createRiskAssessmentServer (fun _ : Unit => (.error .timeout : Except PredFailure Unit))
        (fun _ => (0 : Nat)) [7] ()).1 none =
      (.error (.predictionUnavailable .timeout), none) :=
  riskAssessment_failure_no_persistence
    (fun _ : Unit => (.error .timeout : Except PredFailure Unit))
    (fun _ => (0 : Nat)) [7] none () .timeout rfl

/-- C8: the report-level "Predict Risks" form performs no persistence —
for any store whatsoever the submission returns it unchanged — and its
payload is exactly the one-off feature object built from the patient's
demographics and the single report's codes (with the computed age and
the JSON-stringified procedure pairs). -/
theorem predictRisks_stateless {σ : Type} (store : σ) (currentYear : Int)
    (p : PatientView) (r : ReportView) :
    (predictRisksSubmit store currentYear p r).2 = store ∧
    (predictRisksSubmit store currentYear p r).1 = buildPredictPayload currentYear p r ∧
    (buildPredictPayload currentYear p r).admission_type = p.admission_type ∧
    (buildPredictPayload currentYear p r).discharge_location = p.discharge_location ∧
    (buildPredictPayload currentYear p r).ethnicity = p.ethnicity ∧
    (buildPredictPayload currentYear p r).cpt_cd = r.cpt_codes ∧
    (buildPredictPayload currentYear p r).all_diagnosis = r.icd9_codes ∧
    (buildPredictPayload currentYear p r).gender = p.gender ∧
    (buildPredictPayload currentYear p r).age =
      (jsDateYear p.date_of_birth).map (fun y => currentYear - y) ∧
    (buildPredictPayload currentYear p r).drg_type = p.drg_type ∧
    (buildPredictPayload currentYear p r).drg_code = r.drg_code ∧
    (buildPredictPayload currentYear p r).description = r.drg_description ∧
    (buildPredictPayload currentYear p r).drg_severity = r.drg_severity ∧
    (buildPredictPayload currentYear p r).drg_mortality = r.drg_mortality ∧
    (buildPredictPayload currentYear p r).procedure_pairs = jsonStringify r.procedure_pairs ∧
    (buildPredictPayload currentYear p r).lab_events = r.lab_events ∧
    (buildPredictPayload currentYear p r).submit = "true" :=
  ⟨rfl, rfl, rfl, rfl, rfl, rfl, rfl, rfl, rfl, rfl, rfl, rfl, rfl, rfl, rfl, rfl, rfl⟩

/-- C9: after a successful login the bearer token is stored in both the
`access_token` cookie and local storage, and the Auth Gate's decision
for a non-public request is a function of the `access_token` cookie
value: decode failure redirects, success forwards with user headers. -/
theorem login_persists_token_and_gate_reads_cookie (b : Browser) (t : String) :
    getAssoc (loginStoreToken b t).cookies "access_token" = some t ∧
    getAssoc (loginStoreToken b t).localStorage "access_token" = some t ∧
    (∀ req tok, isPublicPath req.path = false → req.accessTokenCookie = some tok →
      middleware req = (match decodeJwt tok with
        | .ok payload => .nextWithHeaders (userHeaders req.headers payload)
        | .error _ => .redirect "/login")) := by
  refine ⟨getAssoc_setHeader _ _ _, getAssoc_setHeader _ _ _, fun req tok hpub hc => ?_⟩
  cases hd : decodeJwt tok <;> simp [middleware, hpub, hc, hd]

/-- Witness for C9: logging in with token `tok0` stores it in both
places; a request whose cookie is `tok0` (undecodable) is redirected. -/
theorem login_persists_token_witness :
    getAssoc (loginStoreToken ⟨[], []⟩ "tok0").cookies "access_token" = some "tok0" ∧
    getAssoc (loginStoreToken ⟨[], []⟩ "tok0").localStorage "access_token" = some "tok0" ∧
    middleware ⟨"/patients/1", some "tok0", []⟩ = .redirect "/login" :=
  have h := login_persists_token_and_gate_reads_cookie ⟨[], []⟩ "tok0"
  ⟨h.1, h.2.1, (h.2.2 ⟨"/patients/1", some "tok0", []⟩ "tok0" rfl rfl).trans rfl⟩

/-- C10: `createPatient` posts the payload with `date_of_birth`
unconditionally overwritten by `new Date(payload.DOB)` — the
caller-supplied `date_of_birth` is discarded for every input — and when
`DOB` is absent or unparseable the posted `date_of_birth` is an Invalid
Date; the client never raises a ValidationError. -/
theorem createPatient_dob_overwrite (data : PatientCreateData) :
    createPatientClient data = .ok (postedPatientOf data) ∧
    (postedPatientOf data).date_of_birth = jsNewDate data.DOB ∧
    (∀ dob', postedPatientOf { data with date_of_birth := dob' } = postedPatientOf data) ∧
    (data.DOB = none → (postedPatientOf data).date_of_birth = .invalid) ∧
    (∀ s, data.DOB = some s → isIsoDateString s = false →
      (postedPatientOf data).date_of_birth = .invalid) := by
  refine ⟨rfl, rfl, fun dob' => rfl, fun h => ?_, fun s hs hbad => ?_⟩
  · simp [postedPatientOf, jsNewDate, h]
  · simp [postedPatientOf, jsNewDate, hs, hbad]

/-- Witness for C10 at `dataC10`, whose `DOB` is absent: the client
still posts successfully, with an Invalid Date as `date_of_birth`. -/
theorem createPatient_dob_overwrite_witness :
    createPatientClient dataC10 = .ok (postedPatientOf dataC10) ∧
    (postedPatientOf dataC10).date_of_birth = .invalid :=
  have h := createPatient_dob_overwrite dataC10
  ⟨h.1, h.2.2.2.1 rfl⟩
